import Mathlib

/-!
Verification of the keyword base layer of the Dissolve repository
(src/keywords/base.h): the keyword data-type catalogue, the parse-result
enumeration, the descriptor state, the global keyword registry and the
reference-pruning broadcast (`KeywordBase::objectNoLongerValid`).

The header declares the interface; the concrete keyword variants and the
out-of-line member definitions are not part of the excerpt, so those
operations are modelled from the specification and marked as such in their
doc comments.  Everything that is present in the header — the enumerations,
the numeric values of `ParseResult`, the `bool` return type of `read`, and
the body of `objectNoLongerValid` — is embedded directly from the source.
-/

namespace Dissolve

/-- Keyword data types, from `KeywordBase::KeywordDataType`
(src/keywords/base.h, lines 27-72). -/
inductive KeywordDataType
  | AtomTypeRefListData
  | AtomTypeSelectionData
  | BoolData
  | ConfigurationVectorData
  | Data1DStoreData
  | Data2DStoreData
  | Data3DStoreData
  | DoubleData
  | DynamicSiteNodesData
  | ElementVectorData
  | EnumOptionsData
  | ExpressionData
  | ExpressionVariableVectorData
  | FileAndFormatData
  | Function1DData
  | GeometryListData
  | IntegerData
  | IsotopologueListData
  | IsotopologueSetData
  | LinkToKeywordData
  | ModuleData
  | ModuleGroupsData
  | ModuleRefListData
  | NodeData
  | NodeAndIntegerData
  | NodeBranchData
  | NodeValueData
  | NodeValueEnumOptionsData
  | NodeVectorData
  | ProcedureData
  | RangeData
  | SpeciesData
  | SpeciesSiteData
  | SpeciesSiteVectorData
  | SpeciesVectorData
  | StringData
  | ValueStoreData
  | Vec3DoubleData
  | Vec3IntegerData
  | Vec3NodeValueData
  | VectorIntegerDoubleData
  | VectorIntegerStringData
  | VectorStringPairData
  deriving DecidableEq

/-- Keyword parse result, from `KeywordBase::ParseResult`
(src/keywords/base.h, lines 158-163): `Unrecognised = -1`, `Failed = 0`,
`Success = 1`. -/
inductive ParseResult
  | Unrecognised
  | Failed
  | Success
  deriving DecidableEq

/-- The integer value each `ParseResult` enumerator is assigned in the
source. -/
def ParseResult.toInt : ParseResult → Int
  | .Unrecognised => -1
  | .Failed => 0
  | .Success => 1

/-- Conversion of a `ParseResult` value to `bool`, as C++ performs it when a
`ParseResult` is used where a `bool` is expected (such as the declared
return type of `KeywordBase::read`): nonzero becomes `true`. -/
def ParseResult.toBool (r : ParseResult) : Bool :=
  decide (r.toInt ≠ 0)

/-- The seven domain-object classes a keyword may reference, forward-declared
in src/keywords/base.h lines 12-20: AtomType, Configuration, Isotopologue,
Module, Species, SpeciesSite, ProcedureNode. -/
inductive DomainType
  | atomType
  | configuration
  | isotopologue
  | module
  | species
  | speciesSite
  | procedureNode
  deriving DecidableEq

/-- A domain object: its class together with the identity (name) by which
configuration text refers to it.  Keywords hold such handles without owning
them. -/
structure DomainObject where
  otype : DomainType
  name : String
  deriving DecidableEq

/-- The core-data lookup handed to `read`: the collection of live domain
objects, resolved by class and name. -/
def CoreData := List DomainObject

/-- Modelled from the spec: the stored value of a typed keyword variant.
Only the base class is present in the excerpt (the ~40 concrete variants are
missing from it), so a representative subset of value shapes is modelled:
scalar kinds (bool, integer, string, integer 3-vector), a single
domain-object reference kind and a domain-object reference-list kind. -/
inductive KeywordData
  | boolV (v : Bool)
  | intV (n : Int)
  | stringV (v : String)
  | vec3iV (x y z : Int)
  | objRef (dt : DomainType) (r : Option DomainObject)
  | objRefList (dt : DomainType) (os : List DomainObject)
  deriving DecidableEq

/-- The `KeywordDataType` tag corresponding to each modelled value shape. -/
def KeywordData.dataType : KeywordData → KeywordDataType
  | .boolV _ => .BoolData
  | .intV _ => .IntegerData
  | .stringV _ => .StringData
  | .vec3iV _ _ _ => .Vec3IntegerData
  | .objRef dt _ =>
    match dt with
    | .atomType => .AtomTypeSelectionData
    | .configuration => .ConfigurationVectorData
    | .isotopologue => .IsotopologueSetData
    | .module => .ModuleData
    | .species => .SpeciesData
    | .speciesSite => .SpeciesSiteData
    | .procedureNode => .NodeData
  | .objRefList dt _ =>
    match dt with
    | .atomType => .AtomTypeRefListData
    | .configuration => .ConfigurationVectorData
    | .isotopologue => .IsotopologueListData
    | .module => .ModuleRefListData
    | .species => .SpeciesVectorData
    | .speciesSite => .SpeciesSiteVectorData
    | .procedureNode => .NodeVectorData

/-- A keyword instance: the descriptor state of `KeywordBase`
(src/keywords/base.h lines 98-112) together with the variant's stored value.
`kid` stands for the C++ object identity (the address a registry entry
holds); `set_` is the protected "has ever been set" flag. -/
structure Keyword where
  kid : Nat
  name_ : String
  arguments_ : String
  description_ : String
  optionMask_ : Nat
  set_ : Bool
  data : KeywordData
  deriving DecidableEq

/-- `KeywordBase::type()`: the data type stored by the keyword, fixed by the
variant's value shape. -/
def Keyword.type_ (k : Keyword) : KeywordDataType :=
  k.data.dataType

/-- Modelled from the spec: `KeywordBase::setAsModified` (declared at
src/keywords/base.h line 118, body not in the excerpt) flags that the data
has been set by some means other than parsing. -/
def Keyword.setAsModified (k : Keyword) : Keyword :=
  { k with set_ := true }

/-- Modelled from the spec: `KeywordBase::isDataEmpty` (declared at
src/keywords/base.h line 134, body not in the excerpt) — kind-specific "no
meaningful value" predicate: an unset reference or an empty reference list
is empty; scalars are never empty (the documented default is `false`). -/
def Keyword.isDataEmpty (k : Keyword) : Bool :=
  match k.data with
  | .objRef _ none => true
  | .objRefList _ [] => true
  | _ => false

/-- Modelled from the spec: `KeywordBase::hasBeenSet` (declared at
src/keywords/base.h line 136, body not in the excerpt) — "whether the
keyword has been set, and is not currently empty (if relevant)". -/
def Keyword.hasBeenSet (k : Keyword) : Bool :=
  k.set_ && !k.isDataEmpty

/-- Modelled from the spec: the kind-specific minimum argument count
(`KeywordBase::minArguments`, pure virtual) for the modelled variants. -/
def KeywordData.minArguments : KeywordData → Int
  | .vec3iV _ _ _ => 3
  | _ => 1

/-- Modelled from the spec: the kind-specific maximum argument count
(`KeywordBase::maxArguments`, pure virtual); a reference-list variant is
unbounded, signalled by the sentinel -1. -/
def KeywordData.maxArguments : KeywordData → Int
  | .vec3iV _ _ _ => 3
  | .objRefList _ _ => -1
  | _ => 1

/-- `KeywordBase::minArguments()` for a keyword instance. -/
def Keyword.minArguments (k : Keyword) : Int :=
  k.data.minArguments

/-- `KeywordBase::maxArguments()` for a keyword instance. -/
def Keyword.maxArguments (k : Keyword) : Int :=
  k.data.maxArguments

/-- Modelled from the spec: `KeywordBase::validNArgs` (declared at
src/keywords/base.h line 147, body not in the excerpt) — rejects an argument
count below the minimum, rejects one above a non-negative maximum, and
accepts everything else (a negative maximum meaning "no upper bound"). -/
def Keyword.validNArgs (k : Keyword) (nArgsProvided : Int) : Bool :=
  if nArgsProvided < k.minArguments then false
  else if 0 ≤ k.maxArguments && k.maxArguments < nArgsProvided then false
  else true

/-- A token supplied by the external line parser.  The spec places the
textual tokenizer itself out of scope ("treated as an external collaborator
supplying tokenized arguments"), so a token is modelled as carrying the
lexical content the parser's typed accessors deliver: an integer, a bare
string, or a boolean. -/
inductive Arg
  | i (n : Int)
  | s (v : String)
  | b (v : Bool)
  deriving DecidableEq

/-- Resolution of a name against the core data: the first live domain object
of the requested class with the given name, if any. -/
def findObject (cd : CoreData) (dt : DomainType) (nm : String) : Option DomainObject :=
  List.find? (fun o => decide (o.otype = dt ∧ o.name = nm)) cd

/-- Resolution of a run of name tokens against the core data: every token
must be a name that resolves, otherwise the whole run fails (all-or-nothing). -/
def resolveAll (cd : CoreData) (dt : DomainType) : List Arg → Option (List DomainObject)
  | [] => some []
  | .s nm :: rest =>
    match findObject cd dt nm, resolveAll cd dt rest with
    | some o, some os => some (o :: os)
    | _, _ => none
  | _ :: _ => none

/-- Modelled from the spec: the value-parsing step of the per-variant
`KeywordBase::read` implementations (pure virtual in the excerpt).  Reads
tokens starting at the given offset and produces the new stored value on
success; any malformed token, missing token, or unresolved domain-object
name yields `none` with nothing committed. -/
def KeywordData.readData : KeywordData → List Arg → Nat → CoreData → Option KeywordData
  | .boolV _, p, i, _ =>
    match p[i]? with
    | some (.b v) => some (.boolV v)
    | _ => none
  | .intV _, p, i, _ =>
    match p[i]? with
    | some (.i n) => some (.intV n)
    | _ => none
  | .stringV _, p, i, _ =>
    match p[i]? with
    | some (.s v) => some (.stringV v)
    | _ => none
  | .vec3iV _ _ _, p, i, _ =>
    match p[i]?, p[i + 1]?, p[i + 2]? with
    | some (.i x), some (.i y), some (.i z) => some (.vec3iV x y z)
    | _, _, _ => none
  | .objRef dt _, p, i, cd =>
    match p[i]? with
    | some (.s nm) => (findObject cd dt nm).map (fun o => .objRef dt (some o))
    | _ => none
  | .objRefList dt _, p, i, cd =>
    (resolveAll cd dt (p.drop i)).map (fun os => .objRefList dt os)

/-- Modelled from the spec: `KeywordBase::read` (pure virtual, declared at
src/keywords/base.h line 149 with return type `bool`).  Parses arguments
from the supplied tokens starting at the given offset: a wrong argument
count or a failed value parse returns `false` leaving the keyword untouched;
success commits the parsed value and marks the keyword as set. -/
def Keyword.read (k : Keyword) (parser : List Arg) (startArg : Nat) (cd : CoreData) :
    Bool × Keyword :=
  if k.validNArgs ((parser.length : Int) - (startArg : Int)) then
    match k.data.readData parser startArg cd with
    | some d => (true, { k with data := d, set_ := true })
    | none => (false, k)
  else (false, k)

/-- Modelled from the spec: the argument tokens the per-variant
`KeywordBase::write` implementations (pure virtual in the excerpt) emit for
the current value; a reference is written as the referenced object's name. -/
def KeywordData.writeArgsD : KeywordData → List Arg
  | .boolV v => [.b v]
  | .intV n => [.i n]
  | .stringV v => [.s v]
  | .vec3iV x y z => [.i x, .i y, .i z]
  | .objRef _ r =>
    match r with
    | some o => [.s o.name]
    | none => []
  | .objRefList _ os => os.map (fun o => .s o.name)

/-- The serialized form of a keyword: the keyword name token followed by the
argument tokens (the caller supplies the line indentation, which carries no
data). -/
def Keyword.writeArgs (k : Keyword) : List Arg :=
  k.data.writeArgsD

/-- Whether the keyword's stored value holds a reference to the given domain
object. -/
def KeywordData.referencesObj (d : KeywordData) (x : DomainObject) : Bool :=
  match d with
  | .objRef _ r => decide (r = some x)
  | .objRefList _ os => decide (x ∈ os)
  | _ => false

/-- Whether a keyword holds a reference to the given domain object. -/
def Keyword.references (k : Keyword) (x : DomainObject) : Bool :=
  k.data.referencesObj x

/-- Modelled from the spec: the kind-specific `removeReferencesTo`
overloads (declared at src/keywords/base.h lines 191-203, bodies not in the
excerpt) — "prune any references to the supplied object in the contained
data": a matching single reference is nulled, matching entries are erased
from a reference list, and every other kind is the documented no-op
default. -/
def KeywordData.removeRefs (x : DomainObject) : KeywordData → KeywordData
  | .objRef dt r => if r = some x then .objRef dt none else .objRef dt r
  | .objRefList dt os => .objRefList dt (os.filter (fun o => decide (o ≠ x)))
  | d => d

/-- `removeReferencesTo` lifted to a keyword instance: only the contained
data is touched; the descriptor state and identity are untouched. -/
def Keyword.removeReferencesTo (x : DomainObject) (k : Keyword) : Keyword :=
  { k with data := k.data.removeRefs x }

/-- `KeywordBase::objectNoLongerValid` (src/keywords/base.h lines 207-212,
defined inline in the header): loop over all keyword objects in the global
registry and call their local `removeReferencesTo` for the invalidated
object. -/
def objectNoLongerValid (x : DomainObject) (allKeywords : List Keyword) : List Keyword :=
  allKeywords.map (Keyword.removeReferencesTo x)

/-- A kind-mismatch conversion error: a conversion accessor was called on a
variant whose kind cannot honour it.  Carrying the offending kind makes the
failure identifiable, never mistakable for data. -/
inductive ConvError
  | kindMismatch (kind : KeywordDataType)
  deriving DecidableEq

/-- Modelled from the spec: `KeywordBase::asBool` (declared at
src/keywords/base.h line 170) — meaningful only for the bool kind; any other
kind fails loudly with a kind-mismatch error. -/
def Keyword.asBool (k : Keyword) : Except ConvError Bool :=
  match k.data with
  | .boolV v => .ok v
  | _ => .error (.kindMismatch k.type_)

/-- Modelled from the spec: `KeywordBase::asInt` (declared at
src/keywords/base.h line 172) — meaningful only for the integer kind. -/
def Keyword.asInt (k : Keyword) : Except ConvError Int :=
  match k.data with
  | .intV n => .ok n
  | _ => .error (.kindMismatch k.type_)

/-- Modelled from the spec: `KeywordBase::asDouble` (declared at
src/keywords/base.h line 174) — no kind in the modelled representative
subset stores a floating-point value (floating point is outside the
embedding), so every call is a kind mismatch. -/
def Keyword.asDouble (k : Keyword) : Except ConvError Unit :=
  .error (.kindMismatch k.type_)

/-- Modelled from the spec: `KeywordBase::asString` (declared at
src/keywords/base.h line 176) — meaningful only for the string kind. -/
def Keyword.asString (k : Keyword) : Except ConvError String :=
  match k.data with
  | .stringV v => .ok v
  | _ => .error (.kindMismatch k.type_)

/-- Modelled from the spec: `KeywordBase::asVec3Int` (declared at
src/keywords/base.h line 178) — meaningful only for the integer 3-vector
kind. -/
def Keyword.asVec3Int (k : Keyword) : Except ConvError (Int × Int × Int) :=
  match k.data with
  | .vec3iV x y z => .ok (x, y, z)
  | _ => .error (.kindMismatch k.type_)

/-- Modelled from the spec: `KeywordBase::asVec3Double` (declared at
src/keywords/base.h line 180) — no kind in the modelled representative
subset stores floating-point vectors, so every call is a kind mismatch. -/
def Keyword.asVec3Double (k : Keyword) : Except ConvError Unit :=
  .error (.kindMismatch k.type_)

/-- The conversions that are meaningful for each modelled value shape. -/
def KeywordData.supportsAsBool : KeywordData → Bool
  | .boolV _ => true
  | _ => false

/-- Whether the integer conversion is meaningful for the value shape. -/
def KeywordData.supportsAsInt : KeywordData → Bool
  | .intV _ => true
  | _ => false

/-- Whether the string conversion is meaningful for the value shape. -/
def KeywordData.supportsAsString : KeywordData → Bool
  | .stringV _ => true
  | _ => false

/-- Whether the integer 3-vector conversion is meaningful for the value
shape. -/
def KeywordData.supportsAsVec3Int : KeywordData → Bool
  | .vec3iV _ _ _ => true
  | _ => false

/-- One step of the keyword-lifetime history: a keyword variant is
constructed, or a live one is destroyed. -/
inductive KeywordEvent
  | construct
  | destruct (kid : Nat)

/-- The process-wide object-management state: the identities of the keyword
variants that are currently live (ground truth of construction and
destruction), and the contents of the static registry
`KeywordBase::allKeywords_` (src/keywords/base.h line 187), insertion
ordered. -/
structure RegistryState where
  nextId : Nat
  liveIds : List Nat
  allKeywords_ : List Nat

/-- The state at process start: nothing constructed, empty registry. -/
def RegistryState.init : RegistryState :=
  ⟨0, [], []⟩

/-- Modelled from the spec: the registry maintenance performed by
`KeywordBase::KeywordBase` and `KeywordBase::~KeywordBase` (declared at
src/keywords/base.h lines 73-74, bodies not in the excerpt) — construction
appends the new instance to `allKeywords_`, destruction removes it; only a
live instance can be destroyed (destroying anything else is not a defined
C++ execution and leaves the model unchanged). -/
def RegistryState.applyEvent (s : RegistryState) : KeywordEvent → RegistryState
  | .construct =>
    ⟨s.nextId + 1, s.liveIds ++ [s.nextId], s.allKeywords_ ++ [s.nextId]⟩
  | .destruct kid =>
    if kid ∈ s.liveIds then ⟨s.nextId, s.liveIds.erase kid, s.allKeywords_.erase kid⟩
    else s

/-- The registry state after a history of constructions and destructions,
starting from the process-start state. -/
def RegistryState.run (events : List KeywordEvent) : RegistryState :=
  events.foldl RegistryState.applyEvent RegistryState.init

/-!
Helper lemmas shared by the claim theorems.
-/

theorem validNArgs_iff (k : Keyword) (n : Int) :
    k.validNArgs n = true ↔
      (k.minArguments ≤ n ∧ (k.maxArguments < 0 ∨ n ≤ k.maxArguments)) := by
  unfold Keyword.validNArgs
  split
  · constructor
    · intro h; cases h
    · intro h; omega
  · split
    · rename_i h1 h2
      simp only [Bool.and_eq_true, decide_eq_true_eq] at h2
      constructor
      · intro h; cases h
      · intro h; omega
    · rename_i h1 h2
      simp only [Bool.and_eq_true, decide_eq_true_eq, not_and] at h2
      constructor
      · intro _; omega
      · intro _; rfl

theorem findObject_some {cd : CoreData} {dt : DomainType} {nm : String}
    {o : DomainObject} (h : findObject cd dt nm = some o) :
    o.otype = dt ∧ o.name = nm := by
  have := List.find?_some h
  simpa using this

theorem findObject_name {cd : CoreData} {dt : DomainType} {nm : String}
    {o : DomainObject} (h : findObject cd dt nm = some o) :
    findObject cd dt o.name = some o := by
  rw [(findObject_some h).2]
  exact h

theorem resolveAll_length {cd : CoreData} {dt : DomainType} :
    ∀ {args : List Arg} {os : List DomainObject},
      resolveAll cd dt args = some os → os.length = args.length := by
  intro args
  induction args with
  | nil =>
    intro os h
    simp only [resolveAll, Option.some.injEq] at h
    subst h; rfl
  | cons a rest ih =>
    intro os h
    match a with
    | .i _ => simp [resolveAll] at h
    | .b _ => simp [resolveAll] at h
    | .s nm =>
      simp only [resolveAll] at h
      cases hf : findObject cd dt nm with
      | none => rw [hf] at h; simp at h
      | some o =>
        cases hr : resolveAll cd dt rest with
        | none => rw [hf, hr] at h; simp at h
        | some os' =>
          rw [hf, hr] at h
          simp only [Option.some.injEq] at h
          subst h
          simp [ih hr]

theorem resolveAll_roundtrip {cd : CoreData} {dt : DomainType} :
    ∀ {args : List Arg} {os : List DomainObject},
      resolveAll cd dt args = some os →
      resolveAll cd dt (os.map (fun o => Arg.s o.name)) = some os := by
  intro args
  induction args with
  | nil =>
    intro os h
    simp only [resolveAll, Option.some.injEq] at h
    subst h
    rfl
  | cons a rest ih =>
    intro os h
    match a with
    | .i _ => simp [resolveAll] at h
    | .b _ => simp [resolveAll] at h
    | .s nm =>
      simp only [resolveAll] at h
      cases hf : findObject cd dt nm with
      | none => rw [hf] at h; simp at h
      | some o =>
        cases hr : resolveAll cd dt rest with
        | none => rw [hf, hr] at h; simp at h
        | some os' =>
          rw [hf, hr] at h
          simp only [Option.some.injEq] at h
          subst h
          simp only [List.map_cons, resolveAll]
          rw [findObject_name hf, ih hr]

theorem removeRefs_clears (x : DomainObject) (d : KeywordData) :
    (d.removeRefs x).referencesObj x = false := by
  cases d with
  | objRef dt r =>
    by_cases h : r = some x
    · simp [KeywordData.removeRefs, KeywordData.referencesObj, h]
    · simp [KeywordData.removeRefs, KeywordData.referencesObj, h]
  | objRefList dt os =>
    simp [KeywordData.removeRefs, KeywordData.referencesObj, List.mem_filter]
  | boolV v => rfl
  | intV n => rfl
  | stringV v => rfl
  | vec3iV a b c => rfl

theorem removeRefs_frame {y : DomainObject} {d : KeywordData}
    (h : d.referencesObj y = false) : d.removeRefs y = d := by
  cases d with
  | objRef dt r =>
    simp only [KeywordData.referencesObj, decide_eq_false_iff_not] at h
    simp [KeywordData.removeRefs, h]
  | objRefList dt os =>
    simp only [KeywordData.referencesObj, decide_eq_false_iff_not] at h
    simp only [KeywordData.removeRefs, KeywordData.objRefList.injEq, true_and]
    exact List.filter_eq_self.mpr (fun a ha => by
      simp only [decide_eq_true_eq]
      intro hEq
      exact h (hEq ▸ ha))
  | boolV v => rfl
  | intV n => rfl
  | stringV v => rfl
  | vec3iV a b c => rfl

/-- The object-management invariant: the registry mirrors the live
instances exactly, no identity occurs twice, and every live identity was
allocated. -/
def RegistryState.inv (s : RegistryState) : Prop :=
  s.allKeywords_ = s.liveIds ∧ s.liveIds.Nodup ∧ ∀ i ∈ s.liveIds, i < s.nextId

theorem registry_inv_init : RegistryState.init.inv := by
  refine ⟨rfl, List.nodup_nil, ?_⟩
  intro i h
  cases h

theorem registry_inv_applyEvent {s : RegistryState} (h : s.inv) (e : KeywordEvent) :
    (s.applyEvent e).inv := by
  obtain ⟨hEq, hNd, hLt⟩ := h
  cases e with
  | construct =>
    refine ⟨by simp [RegistryState.applyEvent, hEq], ?_, ?_⟩
    · simp only [RegistryState.applyEvent]
      rw [List.nodup_append]
      refine ⟨hNd, List.nodup_singleton _, ?_⟩
      intro a ha hb
      simp only [List.mem_singleton] at hb
      subst hb
      exact absurd (hLt _ ha) (lt_irrefl _)
    · intro i hi
      simp only [RegistryState.applyEvent, List.mem_append, List.mem_singleton] at hi
      rcases hi with hi | hi
      · exact Nat.lt_succ_of_lt (hLt i hi)
      · subst hi; exact Nat.lt_succ_self _
  | destruct kid =>
    simp only [RegistryState.applyEvent]
    split
    · refine ⟨by rw [hEq], hNd.erase kid, ?_⟩
      intro i hi
      exact hLt i (List.mem_of_mem_erase hi)
    · exact ⟨hEq, hNd, hLt⟩

theorem registry_inv_foldl (events : List KeywordEvent) :
    ∀ s : RegistryState, s.inv → (events.foldl RegistryState.applyEvent s).inv := by
  induction events with
  | nil => intro s h; exact h
  | cons e rest ih =>
    intro s h
    exact ih _ (registry_inv_applyEvent h e)

theorem registry_inv_run (events : List KeywordEvent) :
    (RegistryState.run events).inv :=
  registry_inv_foldl events RegistryState.init registry_inv_init

theorem readData_roundtrip {k : Keyword} {p : List Arg} {i : Nat} {cd : CoreData}
    {d : KeywordData}
    (hv : k.validNArgs ((p.length : Int) - (i : Int)) = true)
    (hr : k.data.readData p i cd = some d) :
    d.readData d.writeArgsD 0 cd = some d ∧
    d.minArguments ≤ (d.writeArgsD.length : Int) ∧
    (d.maxArguments < 0 ∨ (d.writeArgsD.length : Int) ≤ d.maxArguments) := by
  cases hk : k.data with
  | boolV v =>
    rw [hk] at hr
    simp only [KeywordData.readData] at hr
    split at hr
    · simp only [Option.some.injEq] at hr
      subst hr
      exact ⟨rfl, by norm_num [KeywordData.writeArgsD, KeywordData.minArguments],
        by norm_num [KeywordData.writeArgsD, KeywordData.maxArguments]⟩
    · cases hr
  | intV n =>
    rw [hk] at hr
    simp only [KeywordData.readData] at hr
    split at hr
    · simp only [Option.some.injEq] at hr
      subst hr
      exact ⟨rfl, by norm_num [KeywordData.writeArgsD, KeywordData.minArguments],
        by norm_num [KeywordData.writeArgsD, KeywordData.maxArguments]⟩
    · cases hr
  | stringV v =>
    rw [hk] at hr
    simp only [KeywordData.readData] at hr
    split at hr
    · simp only [Option.some.injEq] at hr
      subst hr
      exact ⟨rfl, by norm_num [KeywordData.writeArgsD, KeywordData.minArguments],
        by norm_num [KeywordData.writeArgsD, KeywordData.maxArguments]⟩
    · cases hr
  | vec3iV a b c =>
    rw [hk] at hr
    simp only [KeywordData.readData] at hr
    split at hr
    · simp only [Option.some.injEq] at hr
      subst hr
      exact ⟨rfl, by norm_num [KeywordData.writeArgsD, KeywordData.minArguments],
        by norm_num [KeywordData.writeArgsD, KeywordData.maxArguments]⟩
    · cases hr
  | objRef dt r =>
    rw [hk] at hr
    simp only [KeywordData.readData] at hr
    split at hr
    · rename_i nm hp
      cases hf : findObject cd dt nm with
      | none => rw [hf] at hr; cases hr
      | some o =>
        rw [hf] at hr
        simp only [Option.map_some', Option.some.injEq] at hr
        subst hr
        refine ⟨?_, by norm_num [KeywordData.writeArgsD, KeywordData.minArguments],
          by norm_num [KeywordData.writeArgsD, KeywordData.maxArguments]⟩
        simp only [KeywordData.readData, KeywordData.writeArgsD, List.getElem?_cons_zero]
        rw [findObject_name hf]
        rfl
    · cases hr
  | objRefList dt os0 =>
    rw [hk] at hr
    simp only [KeywordData.readData] at hr
    cases hres : resolveAll cd dt (p.drop i) with
    | none => rw [hres] at hr; cases hr
    | some os =>
      rw [hres] at hr
      simp only [Option.map_some', Option.some.injEq] at hr
      subst hr
      have hlen := resolveAll_length hres
      have hone : 1 ≤ os.length := by
        have hmin := ((validNArgs_iff k _).mp hv).1
        rw [Keyword.minArguments, hk] at hmin
        simp only [KeywordData.minArguments] at hmin
        have hdrop : (p.drop i).length = p.length - i := List.length_drop i p
        omega
      refine ⟨?_, ?_, ?_⟩
      · simp only [KeywordData.readData, KeywordData.writeArgsD, List.drop_zero]
        rw [resolveAll_roundtrip hres]
        rfl
      · simp only [KeywordData.writeArgsD, KeywordData.minArguments, List.length_map]
        exact_mod_cast hone
      · left
        norm_num [KeywordData.maxArguments]

/-- Concrete module object used by the witness theorems. -/
def wModule1 : DomainObject := ⟨.module, "M1"⟩

/-- A second, distinct module object used by the witness theorems. -/
def wModule2 : DomainObject := ⟨.module, "M2"⟩

/-- A module-reference keyword holding `wModule1`, used by the witness
theorems. -/
def wModKeyword : Keyword := ⟨0, "Analyser", "<Module>", "Target module", 0, true,
  .objRef .module (some wModule1)⟩

/-- An integer keyword, used by the witness theorems. -/
def wIntKeyword : Keyword := ⟨1, "NSteps", "<n>", "Number of steps", 0, false, .intV 0⟩

/-- A reference keyword that was set and later emptied, used by the witness
theorems. -/
def wEmptyRefKeyword : Keyword := ⟨2, "Target", "<Configuration>", "Target configuration", 0,
  true, .objRef .configuration none⟩

/-!
Claim theorems.
-/

/-- C1: for every domain object `x` (of any of the seven object classes),
`objectNoLongerValid x` invokes the kind-specific `removeReferencesTo x` on
every keyword currently in the global registry; afterwards no registered
keyword holds a reference to `x` (a single-reference variant that held `x`
reports `isDataEmpty`), while invoking it for an object `y` a variant does
not reference leaves that variant entirely unchanged. -/
theorem spec_c1_objectNoLongerValid_prunes (x : DomainObject) (ks : List Keyword) :
    objectNoLongerValid x ks = ks.map (Keyword.removeReferencesTo x) ∧
    (∀ k ∈ objectNoLongerValid x ks, k.references x = false) ∧
    (∀ (dt : DomainType) (k : Keyword), k.data = .objRef dt (some x) →
      (k.removeReferencesTo x).isDataEmpty = true) ∧
    (∀ (y : DomainObject) (k : Keyword), k.references y = false →
      k.removeReferencesTo y = k) := by
  refine ⟨rfl, ?_, ?_, ?_⟩
  · intro k hk
    simp only [objectNoLongerValid, List.mem_map] at hk
    obtain ⟨k0, _, rfl⟩ := hk
    exact removeRefs_clears x k0.data
  · intro dt k hdata
    simp [Keyword.removeReferencesTo, Keyword.isDataEmpty, hdata, KeywordData.removeRefs]
  · intro y k href
    simp only [Keyword.references] at href
    simp only [Keyword.removeReferencesTo, removeRefs_frame href]

/-- Witness for C1: a module-reference keyword holding `M1` is emptied when
`M1` is invalidated, is untouched when the distinct module `M2` is
invalidated, and the broadcast over a registry containing it leaves no
reference to `M1`. -/
theorem spec_c1_witness :
    (wModKeyword.removeReferencesTo wModule1).isDataEmpty = true ∧
    wModKeyword.removeReferencesTo wModule2 = wModKeyword ∧
    ∀ k ∈ objectNoLongerValid wModule1 [wModKeyword], k.references wModule1 = false :=
  ⟨(spec_c1_objectNoLongerValid_prunes wModule1 []).2.2.1 .module wModKeyword rfl,
   (spec_c1_objectNoLongerValid_prunes wModule1 []).2.2.2 wModule2 wModKeyword (by decide),
   (spec_c1_objectNoLongerValid_prunes wModule1 [wModKeyword]).2.1⟩

/-- C2: if `read` returns `Failed` (the `false` return of the declared
interface), the keyword — its stored value and its has-been-set status —
is exactly what it was before the call: the parse is all-or-nothing. -/
theorem spec_c2_read_allOrNothing (k : Keyword) (p : List Arg) (i : Nat)
    (cd : CoreData) (k' : Keyword) (h : k.read p i cd = (false, k')) :
    k' = k ∧ k'.set_ = k.set_ ∧ k'.hasBeenSet = k.hasBeenSet := by
  unfold Keyword.read at h
  split at h
  · split at h
    · simp only [Prod.mk.injEq] at h
      exact absurd h.1 (by decide)
    · simp only [Prod.mk.injEq] at h
      exact ⟨h.2.symm, by rw [h.2], by rw [h.2]⟩
  · simp only [Prod.mk.injEq] at h
    exact ⟨h.2.symm, by rw [h.2], by rw [h.2]⟩

/-- Witness for C2: an integer keyword fed the malformed token `"abc"`
fails and is returned unchanged. -/
theorem spec_c2_witness :
    (wIntKeyword.read [Arg.s "abc"] 0 []).1 = false ∧
    (wIntKeyword.read [Arg.s "abc"] 0 []).2 = wIntKeyword :=
  ⟨rfl, (spec_c2_read_allOrNothing wIntKeyword [Arg.s "abc"] 0 [] _ rfl).1⟩

/-- C3: serialization is lossless for values the variant itself can
produce — for every keyword kind, a value committed by a successful `read`
is written out as tokens that, parsed again against the same core data,
succeed and yield the identical value. -/
theorem spec_c3_write_read_roundtrip (k : Keyword) (p : List Arg) (i : Nat)
    (cd : CoreData) (k' : Keyword) (h : k.read p i cd = (true, k')) :
    k'.read k'.writeArgs 0 cd = (true, k') := by
  unfold Keyword.read at h
  split at h
  · rename_i hv
    cases hrd : k.data.readData p i cd with
    | none => rw [hrd] at h; simp at h
    | some d =>
      rw [hrd] at h
      simp only [Prod.mk.injEq, true_and] at h
      subst h
      obtain ⟨hrt, hmin, hmax⟩ := readData_roundtrip hv hrd
      have hcond : ({ k with data := d, set_ := true } : Keyword).validNArgs
          (((({ k with data := d, set_ := true } : Keyword).writeArgs).length : Int) -
            ((0 : Nat) : Int)) = true := by
        apply (validNArgs_iff _ _).mpr
        simp only [Nat.cast_zero, Int.sub_zero]
        exact ⟨hmin, hmax⟩
      unfold Keyword.read
      rw [if_pos hcond]
      show (match d.readData d.writeArgsD 0 cd with
        | some d2 => (true, { k with data := d2, set_ := true })
        | none => (false, ({ k with data := d, set_ := true } : Keyword))) =
        (true, ({ k with data := d, set_ := true } : Keyword))
      rw [hrt]
  · simp at h

/-- Witness for C3: the integer keyword parsed from the token `100`
round-trips through its own serialized tokens. -/
theorem spec_c3_witness :
    ((wIntKeyword.read [Arg.i 100] 0 []).2.read
        ((wIntKeyword.read [Arg.i 100] 0 []).2.writeArgs) 0 []) =
      (true, (wIntKeyword.read [Arg.i 100] 0 []).2) :=
  spec_c3_write_read_roundtrip wIntKeyword [Arg.i 100] 0 [] _ rfl

/-- C4: after any history of keyword constructions and destructions starting
at process start, the global registry `allKeywords_` equals the list of
currently-live keyword instances, each appearing exactly once — no entry for
a destroyed variant, no live variant missing. -/
theorem spec_c4_registry_completeness (events : List KeywordEvent) :
    (RegistryState.run events).allKeywords_ = (RegistryState.run events).liveIds ∧
    (RegistryState.run events).allKeywords_.Nodup ∧
    ∀ kid, (RegistryState.run events).allKeywords_.count kid =
      if kid ∈ (RegistryState.run events).liveIds then 1 else 0 := by
  obtain ⟨hEq, hNd, _⟩ := registry_inv_run events
  refine ⟨hEq, hEq ▸ hNd, ?_⟩
  intro kid
  rw [hEq]
  split
  · exact List.count_eq_one_of_mem hNd ‹_›
  · exact List.count_eq_zero_of_not_mem ‹_›

/-- C5: `validNArgs n` is true exactly when `minArguments ≤ n` and either
`maxArguments` is the negative "no upper bound" sentinel or
`n ≤ maxArguments`. -/
theorem spec_c5_validNArgs_characterisation (k : Keyword) (n : Int) :
    k.validNArgs n = true ↔
      (k.minArguments ≤ n ∧ (k.maxArguments < 0 ∨ n ≤ k.maxArguments)) :=
  validNArgs_iff k n

/-- Witness for C5: a one-argument keyword accepts exactly one argument. -/
theorem spec_c5_witness : wIntKeyword.validNArgs 1 = true :=
  (spec_c5_validNArgs_characterisation wIntKeyword 1).mpr (by decide)

/-- C6: `hasBeenSet` is true only if the keyword has been set and its data
is not currently empty; `setAsModified` marks it set, a successful `read`
marks it set, and a keyword whose data is empty reports `hasBeenSet =
false` even if it was set before. -/
theorem spec_c6_hasBeenSet_semantics (k : Keyword) :
    (k.hasBeenSet = true → k.set_ = true ∧ k.isDataEmpty = false) ∧
    (k.setAsModified).set_ = true ∧
    (k.isDataEmpty = true → k.hasBeenSet = false) ∧
    ∀ (p : List Arg) (i : Nat) (cd : CoreData) (k' : Keyword),
      k.read p i cd = (true, k') → k'.set_ = true := by
  refine ⟨?_, rfl, ?_, ?_⟩
  · intro h
    unfold Keyword.hasBeenSet at h
    simp only [Bool.and_eq_true, Bool.not_eq_true'] at h
    exact h
  · intro h
    unfold Keyword.hasBeenSet
    simp [h]
  · intro p i cd k' h
    unfold Keyword.read at h
    split at h
    · split at h
      · simp only [Prod.mk.injEq, true_and] at h
        rw [← h]
      · simp at h
    · simp at h

/-- Witness for C6: a reference keyword that was set and later emptied
reports `hasBeenSet = false`, and a successful parse marks the integer
keyword as set. -/
theorem spec_c6_witness :
    wEmptyRefKeyword.set_ = true ∧ wEmptyRefKeyword.hasBeenSet = false ∧
    ((wIntKeyword.read [Arg.i 100] 0 []).2).set_ = true :=
  ⟨rfl, (spec_c6_hasBeenSet_semantics wEmptyRefKeyword).2.2.1 rfl,
   (spec_c6_hasBeenSet_semantics wIntKeyword).2.2.2 [Arg.i 100] 0 [] _ rfl⟩

/-- C7 counterexample: `read` is declared to return `bool`, not
`ParseResult`, so its return value cannot distinguish the enumeration's
three outcomes — `Unrecognised` and `Success` convert to the same boolean,
and a concrete successful `read` returns a value equal to the boolean image
of `Unrecognised`. -/
theorem spec_c7_counterexample :
    ParseResult.toBool .Unrecognised = ParseResult.toBool .Success ∧
    ParseResult.Unrecognised ≠ ParseResult.Success ∧
    (wIntKeyword.read [Arg.i 100] 0 []).1 = ParseResult.toBool .Unrecognised := by
  exact ⟨rfl, by decide, rfl⟩

/-- C7 amended: the `ParseResult` enumeration distinguishes `Unrecognised`,
`Failed` and `Success`, but the declared `read` interface returns `bool`;
under the boolean conversion a caller can tell `Failed` (false) from the
other two outcomes, while `Unrecognised` and `Success` are
indistinguishable. -/
theorem spec_c7_amended_read_returns_bool :
    (∀ r : ParseResult, r.toBool = false ↔ r = .Failed) ∧
    ParseResult.toBool .Unrecognised = ParseResult.toBool .Success ∧
    ∀ (k : Keyword) (p : List Arg) (i : Nat) (cd : CoreData),
      (k.read p i cd).1 = ParseResult.toBool .Failed ∨
      (k.read p i cd).1 = ParseResult.toBool .Success := by
  refine ⟨?_, rfl, ?_⟩
  · intro r
    cases r <;> decide
  · intro k p i cd
    cases h : (k.read p i cd).1
    · left
      rfl
    · right
      rfl

/-- C8: a conversion accessor that is not meaningful for a variant's kind
fails loudly with a kind-mismatch error naming that kind — it never
returns a bare value. -/
theorem spec_c8_conversion_kind_mismatch (k : Keyword) :
    (k.data.supportsAsBool = false → k.asBool = .error (.kindMismatch k.type_)) ∧
    (k.data.supportsAsInt = false → k.asInt = .error (.kindMismatch k.type_)) ∧
    k.asDouble = .error (.kindMismatch k.type_) ∧
    (k.data.supportsAsString = false → k.asString = .error (.kindMismatch k.type_)) ∧
    (k.data.supportsAsVec3Int = false → k.asVec3Int = .error (.kindMismatch k.type_)) ∧
    k.asVec3Double = .error (.kindMismatch k.type_) := by
  refine ⟨?_, ?_, rfl, ?_, ?_, rfl⟩ <;>
    · intro h
      cases hd : k.data <;>
        simp_all [Keyword.asBool, Keyword.asInt, Keyword.asString, Keyword.asVec3Int,
          KeywordData.supportsAsBool, KeywordData.supportsAsInt,
          KeywordData.supportsAsString, KeywordData.supportsAsVec3Int]

/-- Witness for C8: the module-reference keyword honours none of the six
conversions; each accessor reports a kind mismatch. -/
theorem spec_c8_witness :
    wModKeyword.asBool = .error (.kindMismatch wModKeyword.type_) ∧
    wModKeyword.asInt = .error (.kindMismatch wModKeyword.type_) ∧
    wModKeyword.asDouble = .error (.kindMismatch wModKeyword.type_) ∧
    wModKeyword.asString = .error (.kindMismatch wModKeyword.type_) ∧
    wModKeyword.asVec3Int = .error (.kindMismatch wModKeyword.type_) ∧
    wModKeyword.asVec3Double = .error (.kindMismatch wModKeyword.type_) :=
  ⟨(spec_c8_conversion_kind_mismatch wModKeyword).1 rfl,
   (spec_c8_conversion_kind_mismatch wModKeyword).2.1 rfl,
   (spec_c8_conversion_kind_mismatch wModKeyword).2.2.1,
   (spec_c8_conversion_kind_mismatch wModKeyword).2.2.2.1 rfl,
   (spec_c8_conversion_kind_mismatch wModKeyword).2.2.2.2.1 rfl,
   (spec_c8_conversion_kind_mismatch wModKeyword).2.2.2.2.2⟩

/-- C9: the `ParseResult` enumerators carry the values `Unrecognised = -1`,
`Failed = 0`, `Success = 1`; consequently, converted to the boolean the
declared `read` interface actually returns, a result is false exactly when
it is `Failed`, and `Unrecognised` and `Success` are indistinguishable. -/
theorem spec_c9_parseResult_values :
    ParseResult.toInt .Unrecognised = -1 ∧
    ParseResult.toInt .Failed = 0 ∧
    ParseResult.toInt .Success = 1 ∧
    (∀ r : ParseResult, r.toBool = false ↔ r = .Failed) ∧
    ParseResult.toBool .Unrecognised = ParseResult.toBool .Success ∧
    ∀ (k : Keyword) (p : List Arg) (i : Nat) (cd : CoreData),
      ((k.read p i cd).1 = false ↔ (k.read p i cd).1 = ParseResult.toBool .Failed) := by
  refine ⟨rfl, rfl, rfl, ?_, rfl, ?_⟩
  · intro r
    cases r <;> decide
  · intro k p i cd
    rfl

/-- C10: the pruning broadcast never changes the registry itself — it maps
each registered keyword to its pruned self in place, preserving the
registry's length, order, and every keyword's identity and descriptor
state; no keyword is deregistered or destroyed. -/
theorem spec_c10_broadcast_frame (x : DomainObject) (ks : List Keyword) :
    (objectNoLongerValid x ks).length = ks.length ∧
    (objectNoLongerValid x ks).map
        (fun k => (k.kid, k.name_, k.arguments_, k.description_, k.optionMask_, k.set_)) =
      ks.map (fun k => (k.kid, k.name_, k.arguments_, k.description_, k.optionMask_, k.set_)) := by
  constructor
  · simp [objectNoLongerValid]
  · simp only [objectNoLongerValid, List.map_map]
    rfl

end Dissolve
